import Mathlib

/-!
Verification of the Kanbot backend against its specification.

This file shallowly embeds the parts of the code the claims are about:
* `calculate_next_run`, `process_scheduled_cards` and
  `create_card_from_schedule` from `backend/app/api/v1/scheduled_cards.py`;
* `ConnectionManager` from `backend/app/websocket/manager.py`;
* `dispatch_webhooks` from `backend/app/services/webhooks.py`;
* the notification fan-out inside `create_card` from
  `backend/app/api/v1/cards.py`;
* `custom_rate_limit_handler` from `backend/app/main.py`.

Python `datetime` values are embedded as records of calendar components at
second granularity; an operation that can raise `ValueError` returns an
`Option`.  Python dicts are embedded as association lists that distinguish
an absent key from a key bound to an empty collection, and `set`s as lists.
-/

namespace Kanbot

/-- Embedding of a (timezone-aware, UTC) Python `datetime` down to second
granularity.  The code under verification never touches microseconds. -/
structure PyDateTime where
  year : Nat
  month : Nat
  day : Nat
  hour : Nat
  minute : Nat
  second : Nat
deriving DecidableEq

/-- Python's Gregorian leap-year rule (`calendar.isleap`). -/
def isLeapYear (y : Nat) : Bool :=
  y % 4 == 0 && (y % 100 != 0 || y % 400 == 0)

/-- Days in a month of the proleptic Gregorian calendar, as Python's
`datetime` uses to validate dates. -/
def daysInMonth (y m : Nat) : Nat :=
  if m = 2 then (if isLeapYear y then 29 else 28)
  else if m = 4 ∨ m = 6 ∨ m = 9 ∨ m = 11 then 30
  else 31

/-- A structurally valid datetime: exactly the component ranges Python's
`datetime` constructor accepts (year range aside, which the code never
exceeds). -/
def PyDateTime.Valid (t : PyDateTime) : Prop :=
  1 ≤ t.month ∧ t.month ≤ 12 ∧ 1 ≤ t.day ∧ t.day ≤ daysInMonth t.year t.month ∧
    t.hour < 24 ∧ t.minute < 60 ∧ t.second < 60

instance (t : PyDateTime) : Decidable t.Valid := by
  unfold PyDateTime.Valid; infer_instance

/-- Injective key used to compare datetimes.  On valid datetimes it orders
exactly as Python's `datetime` comparison does (component-lexicographic),
because every component stays below its slot width (month ≤ 12 < 16,
day ≤ 31 < 32, hour < 24, minute < 60, second < 60). -/
def PyDateTime.toKey (t : PyDateTime) : Nat :=
  ((((t.year * 16 + t.month) * 32 + t.day) * 24 + t.hour) * 60 + t.minute) * 60
    + t.second

/-- `a < b` for datetimes, as Python's `<` on valid datetimes. -/
def PyDateTime.lt (a b : PyDateTime) : Prop := a.toKey < b.toKey

/-- `a ≤ b` for datetimes, as Python's `<=` on valid datetimes. -/
def PyDateTime.le (a b : PyDateTime) : Prop := a.toKey ≤ b.toKey

instance (a b : PyDateTime) : Decidable (a.lt b) := Nat.decLt _ _

instance (a b : PyDateTime) : Decidable (a.le b) := Nat.decLe _ _

/-- Adding `timedelta(days=1)`: the calendar successor. -/
def PyDateTime.addDay (t : PyDateTime) : PyDateTime :=
  if t.day < daysInMonth t.year t.month then { t with day := t.day + 1 }
  else if t.month < 12 then { t with month := t.month + 1, day := 1 }
  else { t with year := t.year + 1, month := 1, day := 1 }

/-- Adding `timedelta(days=n)` for `n ≥ 0`. -/
def PyDateTime.addDays (t : PyDateTime) : Nat → PyDateTime
  | 0 => t
  | n + 1 => (t.addDays n).addDay

/-- Adding `timedelta(hours=1)`. -/
def PyDateTime.addHour (t : PyDateTime) : PyDateTime :=
  if t.hour < 23 then { t with hour := t.hour + 1 }
  else { t.addDay with hour := 0 }

/-- Python's `datetime.replace(year=y, month=m, day=d)`: keeps the time of
day and validates the new date, raising `ValueError` (here: `none`) on an
invalid combination. -/
def PyDateTime.replaceYMD (t : PyDateTime) (y m d : Nat) : Option PyDateTime :=
  if 1 ≤ m ∧ m ≤ 12 ∧ 1 ≤ d ∧ d ≤ daysInMonth y m then
    some { t with year := y, month := m, day := d }
  else none

/-- Fuel-indexed body of the `while month > 12: month -= 12; year += 1`
loop of the quarterly branch of `calculate_next_run`.  Each iteration
shrinks `month` by 12, so `month` itself is enough fuel. -/
def normMonthAux : Nat → Nat → Nat → Nat × Nat
  | 0, year, month => (year, month)
  | fuel + 1, year, month =>
    if 12 < month then normMonthAux fuel (year + 1) (month - 12)
    else (year, month)

/-- The `while month > 12: month -= 12; year += 1` loop of the quarterly
branch of `calculate_next_run`. -/
def normMonth (year month : Nat) : Nat × Nat :=
  normMonthAux month year month

/-- `RecurrenceInterval` from `backend/app/models/scheduled_card.py`. -/
inductive RecurrenceInterval where
  | daily
  | weekly
  | biweekly
  | monthly
  | quarterly
  | yearly
deriving DecidableEq

/-- `calculate_next_run` from `backend/app/api/v1/scheduled_cards.py`.
A branch that can raise `ValueError` (via `datetime.replace`) returns
`none` in that case. -/
def calculate_next_run (current_datetime : PyDateTime) :
    RecurrenceInterval → Option PyDateTime
  | .daily => some (current_datetime.addDays 1)
  | .weekly => some (current_datetime.addDays 7)
  | .biweekly => some (current_datetime.addDays 14)
  | .monthly =>
    let month := current_datetime.month + 1
    let ym : Nat × Nat :=
      if 12 < month then (current_datetime.year + 1, 1)
      else (current_datetime.year, month)
    current_datetime.replaceYMD ym.1 ym.2 (min current_datetime.day 28)
  | .quarterly =>
    let ym := normMonth current_datetime.year (current_datetime.month + 3)
    current_datetime.replaceYMD ym.1 ym.2 (min current_datetime.day 28)
  | .yearly =>
    current_datetime.replaceYMD (current_datetime.year + 1)
      current_datetime.month current_datetime.day

/-- Chains of repeated applications of `calculate_next_run` with a fixed
interval, starting from an anchor `t`.  `none` means some application
raised `ValueError`. -/
def calcChain (i : RecurrenceInterval) (t : PyDateTime) : Nat → Option PyDateTime
  | 0 => some t
  | n + 1 => (calcChain i t n).bind (fun u => calculate_next_run u i)

lemma daysInMonth_le (y m : Nat) : 28 ≤ daysInMonth y m ∧ daysInMonth y m ≤ 31 := by
  unfold daysInMonth
  split_ifs <;> omega

lemma valid_addDay {t : PyDateTime} (hv : t.Valid) : t.addDay.Valid := by
  have hb1 := daysInMonth_le t.year (t.month + 1)
  have hb2 := daysInMonth_le (t.year + 1) 1
  obtain ⟨h1, h2, h3, h4, h5, h6, h7⟩ := hv
  unfold PyDateTime.addDay
  split_ifs with hd hm <;> unfold PyDateTime.Valid <;> dsimp only <;> omega

lemma toKey_addDay_lt {t : PyDateTime} (hv : t.Valid) :
    t.toKey < t.addDay.toKey := by
  have hb := daysInMonth_le t.year t.month
  obtain ⟨h1, h2, h3, h4, h5, h6, h7⟩ := hv
  unfold PyDateTime.addDay
  split_ifs with hd hm <;> unfold PyDateTime.toKey <;> dsimp only <;> omega

lemma addDays_spec {t : PyDateTime} (hv : t.Valid) (n : Nat) :
    (t.addDays n).Valid ∧ t.toKey ≤ (t.addDays n).toKey := by
  induction n with
  | zero => exact ⟨hv, le_rfl⟩
  | succ n ih =>
    obtain ⟨hvn, hle⟩ := ih
    exact ⟨valid_addDay hvn, le_trans hle (le_of_lt (toKey_addDay_lt hvn))⟩

lemma toKey_addDays_lt {t : PyDateTime} (hv : t.Valid) {n : Nat} (hn : 0 < n) :
    t.toKey < (t.addDays n).toKey := by
  obtain ⟨m, rfl⟩ : ∃ m, n = m + 1 := ⟨n - 1, by omega⟩
  obtain ⟨hvm, hle⟩ := addDays_spec hv m
  exact lt_of_le_of_lt hle (toKey_addDay_lt hvm)

lemma replaceYMD_eq_some {t u : PyDateTime} {y m d : Nat}
    (h : t.replaceYMD y m d = some u) :
    u = { t with year := y, month := m, day := d } ∧
      1 ≤ m ∧ m ≤ 12 ∧ 1 ≤ d ∧ d ≤ daysInMonth y m := by
  unfold PyDateTime.replaceYMD at h
  split_ifs at h with hc
  injection h with h
  exact ⟨h.symm, hc⟩

lemma normMonthAux_of_le {y m : Nat} (h : m ≤ 12) :
    ∀ f, normMonthAux f y m = (y, m)
  | 0 => rfl
  | f + 1 => by
    unfold normMonthAux
    rw [if_neg (by omega)]

lemma normMonth_of_le {y m : Nat} (h : m ≤ 12) : normMonth y m = (y, m) :=
  normMonthAux_of_le h m

lemma normMonth_of_gt {y m : Nat} (h1 : 12 < m) (h2 : m ≤ 24) :
    normMonth y m = (y + 1, m - 12) := by
  unfold normMonth
  obtain ⟨f, rfl⟩ : ∃ f, m = f + 1 := ⟨m - 1, by omega⟩
  unfold normMonthAux
  rw [if_pos h1]
  exact normMonthAux_of_le (by omega) f

lemma calc_next_run_toKey_lt {t t' : PyDateTime} {i : RecurrenceInterval}
    (hv : t.Valid) (h : calculate_next_run t i = some t') :
    t.toKey < t'.toKey := by
  have hb := daysInMonth_le t.year t.month
  have hd31 : t.day ≤ 31 := le_trans hv.2.2.2.1 hb.2
  obtain ⟨h1, h2, h3, h4, h5, h6, h7⟩ := hv
  cases i with
  | daily =>
    injection h with h
    exact h ▸ toKey_addDays_lt ⟨h1, h2, h3, h4, h5, h6, h7⟩ one_pos
  | weekly =>
    injection h with h
    exact h ▸ toKey_addDays_lt ⟨h1, h2, h3, h4, h5, h6, h7⟩ (by omega)
  | biweekly =>
    injection h with h
    exact h ▸ toKey_addDays_lt ⟨h1, h2, h3, h4, h5, h6, h7⟩ (by omega)
  | monthly =>
    simp only [calculate_next_run] at h
    split_ifs at h with hm <;>
    · obtain ⟨rfl, _⟩ := replaceYMD_eq_some h
      unfold PyDateTime.toKey
      dsimp only
      omega
  | quarterly =>
    simp only [calculate_next_run] at h
    by_cases hq : 12 < t.month + 3
    · rw [normMonth_of_gt hq (by omega)] at h
      obtain ⟨rfl, _⟩ := replaceYMD_eq_some h
      unfold PyDateTime.toKey
      dsimp only
      omega
    · rw [normMonth_of_le (by omega)] at h
      obtain ⟨rfl, _⟩ := replaceYMD_eq_some h
      unfold PyDateTime.toKey
      dsimp only
      omega
  | yearly =>
    simp only [calculate_next_run] at h
    obtain ⟨rfl, _⟩ := replaceYMD_eq_some h
    unfold PyDateTime.toKey
    dsimp only
    omega

lemma calc_monthly_day_le {u t' : PyDateTime}
    (h : calculate_next_run u .monthly = some t') : t'.day ≤ 28 := by
  simp only [calculate_next_run] at h
  obtain ⟨rfl, -⟩ := replaceYMD_eq_some h
  dsimp only
  omega

lemma calc_quarterly_day_le {u t' : PyDateTime}
    (h : calculate_next_run u .quarterly = some t') : t'.day ≤ 28 := by
  simp only [calculate_next_run] at h
  obtain ⟨rfl, -⟩ := replaceYMD_eq_some h
  dsimp only
  omega

/-- Claim C3, amended: for every valid anchor `t` and interval, whenever
`calculate_next_run t interval` returns a result, that result is strictly
after `t`.  (The claim as stated, that a result is always returned, fails:
the yearly branch raises `ValueError` on a Feb 29 anchor, see the
counterexample.) -/
theorem spec_C3 (t t' : PyDateTime) (i : RecurrenceInterval)
    (hv : t.Valid) (h : calculate_next_run t i = some t') : t.lt t' :=
  calc_next_run_toKey_lt hv h

theorem spec_C3_witness :
    PyDateTime.lt ⟨2026, 1, 31, 9, 0, 0⟩ ⟨2026, 2, 28, 9, 0, 0⟩ :=
  spec_C3 ⟨2026, 1, 31, 9, 0, 0⟩ ⟨2026, 2, 28, 9, 0, 0⟩ .monthly
    (by decide) (by decide)

/-- Claim C3, counterexample to the claim as stated: the valid anchor
2024-02-29T09:00Z with the yearly interval makes `calculate_next_run`
raise `ValueError` (embedded as `none`) instead of returning a datetime
strictly after the anchor, because `datetime.replace(year=2025)` is an
invalid date. -/
theorem spec_C3_counterexample :
    (⟨2024, 2, 29, 9, 0, 0⟩ : PyDateTime).Valid ∧
      calculate_next_run ⟨2024, 2, 29, 9, 0, 0⟩ .yearly = none := by
  decide

/-- Claim C4: every result of a monthly or quarterly advancement has its
day-of-month clamped to at most 28, hence along any chain of repeated
monthly/quarterly applications (of length at least one) the day component
never exceeds 28, whatever the anchor's day was. -/
theorem spec_C4 (i : RecurrenceInterval) (t t' : PyDateTime) (n : Nat)
    (hi : i = .monthly ∨ i = .quarterly)
    (h : calcChain i t (n + 1) = some t') : t'.day ≤ 28 := by
  have hstep : ∃ u, calcChain i t n = some u ∧ calculate_next_run u i = some t' := by
    cases hc : calcChain i t n with
    | none => simp [calcChain, hc] at h
    | some u =>
      simp only [calcChain, hc, Option.bind_some] at h
      exact ⟨u, rfl, h⟩
  obtain ⟨u, -, hu⟩ := hstep
  rcases hi with rfl | rfl
  · exact calc_monthly_day_le hu
  · exact calc_quarterly_day_le hu

theorem spec_C4_witness : (⟨2026, 2, 28, 9, 0, 0⟩ : PyDateTime).day ≤ 28 :=
  spec_C4 .monthly ⟨2026, 1, 31, 9, 0, 0⟩ ⟨2026, 2, 28, 9, 0, 0⟩ 0
    (Or.inl rfl) (by decide)

/-- `ScheduledCard` rows (`backend/app/models/scheduled_card.py`), with the
fields the sweep reads and writes.  Ids are embedded as naturals. -/
structure ScheduledCard where
  space_id : Nat
  name : String
  description : Option String
  location : Option String
  interval : RecurrenceInterval
  start_date : PyDateTime
  end_date : Option PyDateTime
  next_run : PyDateTime
  last_run : Option PyDateTime
  active : Bool
deriving DecidableEq

/-- The fields of a materialized `Card` that `create_card_from_schedule`
copies from the template (column resolution and positions live in the
database and are not part of the claims). -/
structure Card where
  name : String
  description : Option String
  location : Option String
  start_date : Option PyDateTime
  end_date : Option PyDateTime
  created_by : Nat
deriving DecidableEq

/-- The date/content part of `create_card_from_schedule`
(`backend/app/api/v1/scheduled_cards.py`): card start is the template's
`start_date` (non-nullable), card end is the template's `end_date` or, when
unset, one hour after the start. -/
def create_card_from_schedule (scheduled_card : ScheduledCard)
    (user_id : Nat) : Card :=
  let card_start_date := scheduled_card.start_date
  let card_end_date : Option PyDateTime :=
    match scheduled_card.end_date with
    | some e => some e
    | none => some card_start_date.addHour
  { name := scheduled_card.name
    description := scheduled_card.description
    location := scheduled_card.location
    start_date := some card_start_date
    end_date := card_end_date
    created_by := user_id }

/-- The `scheduled_card.end_date and scheduled_card.end_date < now` test of
the sweep loop. -/
def pastEnd (now : PyDateTime) (sc : ScheduledCard) : Bool :=
  match sc.end_date with
  | some e => decide (e.lt now)
  | none => false

/-- The `WHERE` clause of the sweep's query: same space, active, and
`next_run <= now`. -/
def isDue (space_id : Nat) (now : PyDateTime) (sc : ScheduledCard) : Bool :=
  sc.space_id == space_id && sc.active && decide (sc.next_run.le now)

/-- The body of the sweep loop of `process_scheduled_cards` for one due
template, as its effects end up persisted: deactivate-and-skip when the
end date has passed; otherwise materialize a card — persisted at once,
because `create_card_from_schedule` commits internally — then stamp
`last_run := now` and reschedule from `now`.  The flag records whether
the iteration ran to completion: when `calculate_next_run` raises
(`false`), the card has already been created and committed, but the
pending `last_run` assignment is rolled back, so the template keeps its
previous state. -/
def processOne (now : PyDateTime) (user_id : Nat) (sc : ScheduledCard) :
    (ScheduledCard × Option Card) × Bool :=
  if pastEnd now sc then (({ sc with active := false }, none), true)
  else
    match calculate_next_run now sc.interval with
    | some nr =>
      (({ sc with last_run := some now, next_run := nr },
        some (create_card_from_schedule sc user_id)), true)
    | none => ((sc, some (create_card_from_schedule sc user_id)), false)

/-- The `for scheduled_card in scheduled_cards` loop, as its effects end
up persisted.  An iteration that raises aborts the loop: its own card is
already committed, the updates of earlier iterations were committed along
with it (or by the final commit when no iteration raises), and the
remaining due templates are never attempted and stay untouched with no
card.  The flag records whether the whole sweep completed. -/
def sweepLoop (now : PyDateTime) (user_id : Nat) :
    List ScheduledCard → List (ScheduledCard × Option Card) × Bool
  | [] => ([], true)
  | sc :: rest =>
    match processOne now user_id sc with
    | (p, true) =>
      let r := sweepLoop now user_id rest
      (p :: r.1, r.2)
    | (p, false) => (p :: rest.map (fun t => (t, none)), false)

/-- `process_scheduled_cards` from `backend/app/api/v1/scheduled_cards.py`:
select the due templates of the space and run the sweep loop over them.
The result is the persisted state of every due template with the card it
produced (if any), and whether the sweep completed without raising. -/
def process_scheduled_cards (space_id : Nat) (now : PyDateTime)
    (user_id : Nat) (cards : List ScheduledCard) :
    List (ScheduledCard × Option Card) × Bool :=
  sweepLoop now user_id (cards.filter (isDue space_id now))

/-- The `created_count` the endpoint reports: one per iteration that
reached the card-creation branch. -/
def cards_created (res : List (ScheduledCard × Option Card)) : Nat :=
  (res.filterMap Prod.snd).length

lemma sweepLoop_forall₂ {now : PyDateTime} {uid : Nat} :
    ∀ {l : List ScheduledCard} {res : List (ScheduledCard × Option Card)},
      sweepLoop now uid l = (res, true) →
      List.Forall₂ (fun sc p => processOne now uid sc = (p, true)) l res := by
  intro l
  induction l with
  | nil =>
    intro res h
    unfold sweepLoop at h
    injection h with h1 h2
    exact h1 ▸ List.Forall₂.nil
  | cons sc rest ih =>
    intro res h
    unfold sweepLoop at h
    cases hp1 : processOne now uid sc with
    | mk p b =>
      rw [hp1] at h
      cases b with
      | true =>
        cases hr : sweepLoop now uid rest with
        | mk r1 r2 =>
          rw [hr] at h
          injection h with h1 h2
          subst h2
          exact h1 ▸ List.Forall₂.cons hp1 (ih hr)
      | false =>
        injection h with h1 h2
        exact Bool.noConfusion h2

/-- What one sweep iteration must have done to a due template `sc` to
produce the pair `p` of (updated template, optional created card). -/
def SweepOutcome (now : PyDateTime) (user_id : Nat) (sc : ScheduledCard)
    (p : ScheduledCard × Option Card) : Prop :=
  if pastEnd now sc then p = ({ sc with active := false }, none)
  else ∃ nr, calculate_next_run now sc.interval = some nr ∧ now.lt nr ∧
    p = ({ sc with last_run := some now, next_run := nr },
      some (create_card_from_schedule sc user_id))

lemma processOne_sweepOutcome {now : PyDateTime} {uid : Nat} (hv : now.Valid)
    {sc : ScheduledCard} {p : ScheduledCard × Option Card}
    (h : processOne now uid sc = (p, true)) : SweepOutcome now uid sc p := by
  unfold SweepOutcome
  unfold processOne at h
  by_cases hpe : pastEnd now sc = true
  · rw [if_pos hpe] at h
    rw [if_pos hpe]
    injection h with h h'
    exact h.symm
  · rw [if_neg hpe] at h
    rw [if_neg hpe]
    cases hc : calculate_next_run now sc.interval with
    | none =>
      rw [hc] at h
      injection h with h h'
      exact Bool.noConfusion h'
    | some nr =>
      rw [hc] at h
      injection h with h h'
      exact ⟨nr, rfl, calc_next_run_toKey_lt hv hc, h.symm⟩

lemma sweepOutcome_count {now : PyDateTime} {uid : Nat}
    {l : List ScheduledCard} {res : List (ScheduledCard × Option Card)}
    (h : List.Forall₂ (SweepOutcome now uid) l res) :
    cards_created res = (l.filter (fun sc => !pastEnd now sc)).length := by
  induction h with
  | nil => rfl
  | @cons a b l' res' hab htl ih =>
    unfold SweepOutcome at hab
    by_cases hpe : pastEnd now a = true
    · rw [if_pos hpe] at hab
      subst hab
      simpa [cards_created, List.filter_cons, hpe, List.filterMap_cons]
        using ih
    · rw [if_neg hpe] at hab
      obtain ⟨nr, -, -, rfl⟩ := hab
      simpa [cards_created, List.filter_cons, hpe, List.filterMap_cons]
        using ih

lemma forall₂_mem_right {α β : Type} {R : α → β → Prop} {l : List α}
    {r : List β} (h : List.Forall₂ R l r) :
    ∀ b ∈ r, ∃ a, a ∈ l ∧ R a b := by
  induction h with
  | nil =>
    intro b hb
    cases hb
  | cons hab htl ih =>
    intro b hb
    rcases List.mem_cons.mp hb with rfl | hb'
    · exact ⟨_, List.mem_cons_self _ _, hab⟩
    · obtain ⟨a, ha, hr⟩ := ih b hb'
      exact ⟨a, List.mem_cons_of_mem _ ha, hr⟩

lemma sweepOutcome_not_due {space_id uid : Nat} {now : PyDateTime}
    {sc : ScheduledCard} {p : ScheduledCard × Option Card}
    (h : SweepOutcome now uid sc p) : isDue space_id now p.1 = false := by
  unfold SweepOutcome at h
  by_cases hpe : pastEnd now sc = true
  · rw [if_pos hpe] at h
    subst h
    simp [isDue]
  · rw [if_neg hpe] at h
    obtain ⟨nr, -, hlt, rfl⟩ := h
    have hnle : ¬ nr.le now := by
      unfold PyDateTime.lt at hlt
      unfold PyDateTime.le
      omega
    simp [isDue, hnle]

/-- Claim C2, amended: in a sweep at time `now` that completed without an
exception, every active template of the space with `next_run ≤ now` is
processed exactly once (the result list corresponds one-to-one with the
due list); a due template whose `end_date` has passed is deactivated and
yields no card; every other due template yields exactly one card, gets
`last_run = now` and `next_run = calculate_next_run now interval`, a time
strictly after `now` (anchored to the sweep time); the reported count
equals the number of due, non-expired templates; and no processed
template is still due at the same `now`.  (The claim as frozen, over every
sweep, fails: a due yearly template swept at a Feb 29 `now` makes
`calculate_next_run` raise after the card was already committed, see the
counterexample.) -/
theorem spec_C2 (space_id user_id : Nat) (now : PyDateTime)
    (cards : List ScheduledCard) (res : List (ScheduledCard × Option Card))
    (hv : now.Valid)
    (hp : process_scheduled_cards space_id now user_id cards = (res, true)) :
    List.Forall₂ (SweepOutcome now user_id) (cards.filter (isDue space_id now)) res ∧
    cards_created res
      = ((cards.filter (isDue space_id now)).filter (fun sc => !pastEnd now sc)).length ∧
    ∀ p ∈ res, isDue space_id now p.1 = false := by
  unfold process_scheduled_cards at hp
  have hso := (sweepLoop_forall₂ hp).imp
    (fun a b hab => processOne_sweepOutcome hv hab)
  refine ⟨hso, sweepOutcome_count hso, ?_⟩
  intro p hmem
  obtain ⟨sc, -, hout⟩ := forall₂_mem_right hso p hmem
  exact sweepOutcome_not_due hout

/-- A due yearly template, for the counterexample of claim C2. -/
def annualSc : ScheduledCard :=
  { space_id := 0, name := "annual", description := none, location := none
    interval := .yearly, start_date := ⟨2027, 2, 28, 9, 0, 0⟩
    end_date := none, next_run := ⟨2028, 2, 28, 9, 0, 0⟩
    last_run := none, active := true }

/-- A Feb 29 sweep time (2028 is a leap year), for the counterexample of
claim C2. -/
def leapNow : PyDateTime := ⟨2028, 2, 29, 0, 0, 0⟩

/-- Claim C2, counterexample to the claim as stated: sweeping the due
yearly template at the (valid) time 2028-02-29T00:00Z makes
`calculate_next_run` raise `ValueError`.  The card had already been
created and committed by `create_card_from_schedule`'s internal commit,
but the template keeps its previous `last_run` (still `none`, not the
sweep time) and its previous `next_run`, so it is still eligible for the
same `now` — the sweep does not leave every processed template
ineligible, as the claim states. -/
theorem spec_C2_counterexample :
    process_scheduled_cards 0 leapNow 3 [annualSc]
      = ([(annualSc, some (create_card_from_schedule annualSc 3))], false) ∧
    isDue 0 leapNow annualSc = true ∧
    annualSc.last_run = none ∧
    PyDateTime.Valid leapNow := by
  decide

/-- Concrete input for the witness of claim C2: one active daily template,
due at the sweep time 2026-02-02T00:00Z. -/
def sweepSc : ScheduledCard :=
  { space_id := 0, name := "t", description := none, location := none
    interval := .daily, start_date := ⟨2026, 2, 1, 9, 0, 0⟩
    end_date := none, next_run := ⟨2026, 2, 1, 9, 0, 0⟩
    last_run := none, active := true }

/-- The sweep time used by the witness of claim C2. -/
def sweepNow : PyDateTime := ⟨2026, 2, 2, 0, 0, 0⟩

/-- The sweep result at the witness input of claim C2. -/
def sweepRes : List (ScheduledCard × Option Card) :=
  [({ sweepSc with last_run := some sweepNow, next_run := ⟨2026, 2, 3, 0, 0, 0⟩ },
    some (create_card_from_schedule sweepSc 5))]

theorem spec_C2_witness : cards_created sweepRes = 1 := by
  have h := (spec_C2 0 5 sweepNow [sweepSc] sweepRes (by decide)
    (by decide)).2.1
  rw [h]
  decide

/-- Claim C10: when the sweep deactivates a template whose `end_date` has
passed, only the `active` flag changes — `last_run` and `next_run` keep
their previous values — and no card is created for it. -/
theorem spec_C10 (now : PyDateTime) (user_id : Nat) (sc : ScheduledCard)
    (e : PyDateTime) (he : sc.end_date = some e) (hlt : e.lt now) :
    processOne now user_id sc = (({ sc with active := false }, none), true) ∧
    ({ sc with active := false } : ScheduledCard).last_run = sc.last_run ∧
    ({ sc with active := false } : ScheduledCard).next_run = sc.next_run := by
  have hpe : pastEnd now sc = true := by
    unfold pastEnd
    rw [he]
    exact decide_eq_true hlt
  refine ⟨?_, rfl, rfl⟩
  unfold processOne
  rw [if_pos hpe]

/-- Concrete expired template for the witness of claim C10. -/
def expiredSc : ScheduledCard :=
  { space_id := 0, name := "old", description := none, location := none
    interval := .weekly, start_date := ⟨2025, 12, 1, 8, 0, 0⟩
    end_date := some ⟨2026, 1, 1, 0, 0, 0⟩, next_run := ⟨2026, 1, 5, 8, 0, 0⟩
    last_run := some ⟨2025, 12, 29, 8, 0, 0⟩, active := true }

theorem spec_C10_witness :
    processOne ⟨2026, 2, 1, 0, 0, 0⟩ 7 expiredSc
      = (({ expiredSc with active := false }, none), true) :=
  (spec_C10 ⟨2026, 2, 1, 0, 0, 0⟩ 7 expiredSc ⟨2026, 1, 1, 0, 0, 0⟩
    rfl (by decide)).1

/-- The template of the scenario of claim C6: monthly, starting (and first
due) 2026-01-31T09:00Z, no end date. -/
def tmplC6 : ScheduledCard :=
  { space_id := 1, name := "standup", description := none, location := none
    interval := .monthly, start_date := ⟨2026, 1, 31, 9, 0, 0⟩
    end_date := none, next_run := ⟨2026, 1, 31, 9, 0, 0⟩
    last_run := none, active := true }

/-- The sweep time of the scenario of claim C6. -/
def nowC6 : PyDateTime := ⟨2026, 2, 1, 0, 0, 0⟩

/-- Claim C6, counterexample to the claim as stated: sweeping the scenario
template at 2026-02-01T00:00Z reschedules it to 2026-03-01T00:00Z —
`calculate_next_run` is anchored to the sweep time, not to the template's
start — not to the claimed 2026-02-28T09:00Z. -/
theorem spec_C6_counterexample :
    (process_scheduled_cards 1 nowC6 0 [tmplC6]).1.map (fun p => p.1.next_run)
      = [⟨2026, 3, 1, 0, 0, 0⟩] ∧
    (⟨2026, 3, 1, 0, 0, 0⟩ : PyDateTime) ≠ ⟨2026, 2, 28, 9, 0, 0⟩ := by
  decide

/-- Claim C6, amended: sweeping the scenario template (monthly, start
2026-01-31T09:00Z, no end date) at 2026-02-01T00:00Z sets its `next_run`
to 2026-03-01T00:00Z (rescheduling is anchored to the sweep time), stamps
`last_run` with the sweep time, and creates exactly one card whose start
is the template's start 2026-01-31T09:00Z and whose end defaults to one
hour later, 2026-01-31T10:00Z. -/
theorem spec_C6 :
    process_scheduled_cards 1 nowC6 0 [tmplC6]
      = ([({ tmplC6 with
              last_run := some nowC6
              next_run := ⟨2026, 3, 1, 0, 0, 0⟩ },
          some { name := "standup", description := none, location := none,
                 start_date := some ⟨2026, 1, 31, 9, 0, 0⟩,
                 end_date := some ⟨2026, 1, 31, 10, 0, 0⟩,
                 created_by := 0 })], true) := by
  decide

/-- A websocket connection, identified by a natural. -/
abbrev Conn := Nat

/-- `ConnectionManager.active_connections`: a Python dict from space id to
a set of connections, embedded as an association list.  An absent key is
distinct from a key bound to an empty list, exactly as for the dict. -/
abbrev Registry := List (String × List Conn)

/-- Dict lookup: value of the first (only, for nodup keys) binding. -/
def lookupRoom : Registry → String → Option (List Conn)
  | [], _ => none
  | (r, cs) :: rest, room => if r = room then some cs else lookupRoom rest room

/-- Dict assignment `d[room] = cs`: replace the binding if present,
otherwise append it. -/
def setRoom : Registry → String → List Conn → Registry
  | [], room, cs => [(room, cs)]
  | (r, cs') :: rest, room, cs =>
    if r = room then (room, cs) :: rest else (r, cs') :: setRoom rest room cs

/-- Dict deletion `del d[room]`. -/
def removeRoom (reg : Registry) (room : String) : Registry :=
  reg.filter (fun p => !(p.1 == room))

/-- `set.add`: no duplicate is introduced. -/
def addConn (cs : List Conn) (ws : Conn) : List Conn :=
  if ws ∈ cs then cs else cs ++ [ws]

/-- `ConnectionManager.connect` (after the accept): create the room's
entry if absent, then add the connection to its set. -/
def connect (reg : Registry) (ws : Conn) (space_id : String) : Registry :=
  match lookupRoom reg space_id with
  | none => setRoom reg space_id (addConn [] ws)
  | some cs => setRoom reg space_id (addConn cs ws)

/-- `ConnectionManager.disconnect`: discard the connection from the room's
set if the room is registered, and delete the room's entry if its set
became empty. -/
def disconnect (reg : Registry) (ws : Conn) (space_id : String) : Registry :=
  match lookupRoom reg space_id with
  | none => reg
  | some cs =>
    let cs' := cs.filter (fun c => !(c == ws))
    if cs' = [] then removeRoom reg space_id else setRoom reg space_id cs'

/-- `ConnectionManager.broadcast_to_space`.  `sendOk c = true` means
`c.send_json(message)` returned normally, `false` that it raised; the
per-connection `try/except` makes the whole operation total.  Returns the
updated registry and the list of connections the message was delivered to:
every registered connection is attempted, the failed ones are collected in
`dead_connections` and then discarded from the room's set — which is kept
in the dict even when it becomes empty. -/
def broadcast_to_space (reg : Registry) (space_id : String)
    (sendOk : Conn → Bool) : Registry × List Conn :=
  match lookupRoom reg space_id with
  | none => (reg, [])
  | some cs => (setRoom reg space_id (cs.filter sendOk), cs.filter sendOk)

/-- The room registry holds no empty room entry. -/
def NoEmptyRooms (reg : Registry) : Prop := ∀ p ∈ reg, p.2 ≠ []

instance (reg : Registry) : Decidable (NoEmptyRooms reg) := by
  unfold NoEmptyRooms
  infer_instance

lemma lookupRoom_setRoom {reg : Registry} {room : String} (cs : List Conn) :
    lookupRoom (setRoom reg room cs) room = some cs := by
  induction reg with
  | nil => simp [setRoom, lookupRoom]
  | cons p rest ih =>
    by_cases h : p.1 = room
    · simp [setRoom, h, lookupRoom]
    · simp [setRoom, h, lookupRoom, ih]

lemma setRoom_keys {reg : Registry} {room : String} {cs₀ : List Conn}
    (h : lookupRoom reg room = some cs₀) (cs : List Conn) :
    (setRoom reg room cs).map Prod.fst = reg.map Prod.fst := by
  induction reg with
  | nil => cases h
  | cons p rest ih =>
    by_cases hp : p.1 = room
    · simp [setRoom, hp]
    · rw [lookupRoom] at h
      rw [if_neg hp] at h
      simp [setRoom, hp, ih h]

lemma noEmptyRooms_setRoom {reg : Registry} {room : String} {cs : List Conn}
    (hne : NoEmptyRooms reg) (hcs : cs ≠ []) :
    NoEmptyRooms (setRoom reg room cs) := by
  induction reg with
  | nil =>
    intro p hp
    rcases List.mem_singleton.mp hp with rfl
    exact hcs
  | cons q rest ih =>
    have hq := hne q (List.mem_cons_self _ _)
    have hrest : NoEmptyRooms rest := fun p hp => hne p (List.mem_cons_of_mem _ hp)
    intro p hp
    unfold setRoom at hp
    split_ifs at hp
    · rcases List.mem_cons.mp hp with rfl | hp'
      · exact hcs
      · exact hrest p hp'
    · rcases List.mem_cons.mp hp with rfl | hp'
      · exact hq
      · exact ih hrest p hp'

lemma addConn_ne_nil (cs : List Conn) (ws : Conn) : addConn cs ws ≠ [] := by
  unfold addConn
  split_ifs with h
  · intro hnil
    rw [hnil] at h
    cases h
  · simp

/-- Claim C1: `broadcast_to_space` never raises because one connection's
send fails (the embedded operation is total for every send behaviour):
each registered connection of the room is attempted independently, exactly
the connections whose send succeeded receive the message, and exactly the
failed ones are removed from the room's set. -/
theorem spec_C1 (reg : Registry) (space_id : String) (sendOk : Conn → Bool)
    (cs : List Conn) (hlk : lookupRoom reg space_id = some cs) :
    (broadcast_to_space reg space_id sendOk).2 = cs.filter sendOk ∧
    lookupRoom (broadcast_to_space reg space_id sendOk).1 space_id
      = some (cs.filter sendOk) ∧
    ∀ c ∈ cs, sendOk c = true →
      c ∈ (broadcast_to_space reg space_id sendOk).2 := by
  unfold broadcast_to_space
  rw [hlk]
  refine ⟨rfl, lookupRoom_setRoom _, ?_⟩
  intro c hc hok
  exact List.mem_filter.mpr ⟨hc, hok⟩

theorem spec_C1_witness :
    (broadcast_to_space [("a", [1, 2])] "a" (fun c => c == 1)).2 = [1] :=
  (spec_C1 [("a", [1, 2])] "a" (fun c => c == 1) [1, 2] rfl).1

/-- Claim C5, counterexample to the claim as stated: publishing to room
"a", whose only connection 7 fails its send, leaves the registry with room
"a" bound to the empty set — the entry is not deleted, so the registry
does retain an empty room entry after a publish. -/
theorem spec_C5_counterexample :
    lookupRoom (broadcast_to_space [("a", [7])] "a" (fun _ => false)).1 "a"
      = some [] ∧
    ¬ NoEmptyRooms (broadcast_to_space [("a", [7])] "a" (fun _ => false)).1 := by
  decide

/-- Claim C5, amended: `connect` and `disconnect` preserve the
no-empty-room invariant — in particular `disconnect` deletes the room
entry when the last connection leaves — but `broadcast_to_space` does not:
it never deletes a room key (the registered key set is unchanged), so a
publish that removes the last (failed) connection of a room retains the
room bound to an empty set. -/
theorem spec_C5 (reg : Registry) (ws : Conn) (space_id : String)
    (sendOk : Conn → Bool) (hne : NoEmptyRooms reg) :
    NoEmptyRooms (connect reg ws space_id) ∧
    NoEmptyRooms (disconnect reg ws space_id) ∧
    ((broadcast_to_space reg space_id sendOk).1).map Prod.fst
      = reg.map Prod.fst := by
  refine ⟨?_, ?_, ?_⟩
  · unfold connect
    cases hlk : lookupRoom reg space_id with
    | none => exact noEmptyRooms_setRoom hne (addConn_ne_nil _ _)
    | some cs => exact noEmptyRooms_setRoom hne (addConn_ne_nil _ _)
  · unfold disconnect
    cases hlk : lookupRoom reg space_id with
    | none => exact hne
    | some cs =>
      dsimp only
      split_ifs with hnil
      · intro p hp
        exact hne p (List.mem_of_mem_filter hp)
      · exact noEmptyRooms_setRoom hne hnil
  · unfold broadcast_to_space
    cases hlk : lookupRoom reg space_id with
    | none => rfl
    | some cs => exact setRoom_keys hlk _

theorem spec_C5_witness :
    NoEmptyRooms (disconnect [("a", [3]), ("b", [4])] 3 "a") :=
  (spec_C5 [("a", [3]), ("b", [4])] 3 "a" (fun _ => true) (by decide)).2.1

/-- `Webhook` rows (`backend/app/models/webhook.py`) as
`dispatch_webhooks` reads them; a `NULL` events column and an empty list
are both falsy in Python, embedded as the empty list. -/
structure Webhook where
  id : Nat
  space_id : Nat
  url : String
  secret : Option String
  events : List String
  active : Bool

/-- Outcome of one `client.post` call: an HTTP response, or a raised
exception. -/
inductive SendOutcome where
  | response (status : Nat) (body : String)
  | exc (message : String)

/-- `WebhookLog` row written for one delivery attempt. -/
structure WebhookLog where
  webhook_id : Nat
  event : String
  response_status : Option Nat
  response_body : String
  success : Bool
deriving DecidableEq

/-- Python string slicing `s[:n]`: the first `n` code points. -/
def strTrunc (s : String) (n : Nat) : String := ⟨s.data.take n⟩

/-- The `WebhookLog` produced by the `try/except` body of
`dispatch_webhooks` for one webhook: on a response, status and a
1000-character truncation of the body are recorded and `success` is
`200 <= status < 300`; on an exception, the truncated message is recorded
with no status and `success = False`. -/
def mkLog (event : String) (w : Webhook) : SendOutcome → WebhookLog
  | .response st body =>
    { webhook_id := w.id, event := event, response_status := some st
      response_body := strTrunc body 1000
      success := decide (200 ≤ st) && decide (st < 300) }
  | .exc msg =>
    { webhook_id := w.id, event := event, response_status := none
      response_body := strTrunc msg 1000, success := false }

/-- The `for webhook in webhooks` loop of `dispatch_webhooks`: skip a
webhook whose non-empty event list does not contain the event (`continue`),
otherwise record exactly one log for the attempt. -/
def dispatchLoop (event : String) (behavior : Webhook → SendOutcome) :
    List Webhook → List WebhookLog
  | [] => []
  | w :: ws =>
    if !w.events.isEmpty && !(w.events.contains event) then
      dispatchLoop event behavior ws
    else
      mkLog event w (behavior w) :: dispatchLoop event behavior ws

/-- `dispatch_webhooks` (`backend/app/services/webhooks.py`): select the
space's active webhooks and run the delivery loop.  `behavior` gives the
outcome of the HTTP call to each webhook. -/
def dispatch_webhooks (space_id : Nat) (event : String)
    (behavior : Webhook → SendOutcome) (hooks : List Webhook) :
    List WebhookLog :=
  dispatchLoop event behavior
    (hooks.filter (fun w => w.space_id == space_id && w.active))

lemma dispatchLoop_eq_map (event : String) (behavior : Webhook → SendOutcome)
    (l : List Webhook) :
    dispatchLoop event behavior l
      = (l.filter (fun w => w.events.isEmpty || w.events.contains event)).map
          (fun w => mkLog event w (behavior w)) := by
  induction l with
  | nil => rfl
  | cons w ws ih =>
    unfold dispatchLoop
    rw [List.filter_cons, ← Bool.not_or]
    cases h : (w.events.isEmpty || w.events.contains event) with
    | true => simp [ih]
    | false => simp [ih]

lemma mkLog_success_iff (event : String) (w : Webhook) (o : SendOutcome) :
    (mkLog event w o).success = true ↔
      ∃ st, (mkLog event w o).response_status = some st ∧
        200 ≤ st ∧ st < 300 := by
  cases o with
  | response st body =>
    constructor
    · intro hs
      rw [show (mkLog event w (SendOutcome.response st body)).success
            = (decide (200 ≤ st) && decide (st < 300)) from rfl,
          Bool.and_eq_true, decide_eq_true_eq, decide_eq_true_eq] at hs
      exact ⟨st, rfl, hs.1, hs.2⟩
    · rintro ⟨st', hst, hlo, hhi⟩
      injection hst with hst
      subst hst
      rw [show (mkLog event w (SendOutcome.response st body)).success
            = (decide (200 ≤ st) && decide (st < 300)) from rfl,
          Bool.and_eq_true, decide_eq_true_eq, decide_eq_true_eq]
      exact ⟨hlo, hhi⟩
  | exc msg =>
    constructor
    · intro hs
      exact Bool.noConfusion hs
    · rintro ⟨st', hst, -, -⟩
      exact Option.noConfusion hst

lemma mkLog_body_len (event : String) (w : Webhook) (o : SendOutcome) :
    (mkLog event w o).response_body.length ≤ 1000 := by
  cases o with
  | response st body =>
    show (body.data.take 1000).length ≤ 1000
    exact List.length_take_le _ _
  | exc msg =>
    show (msg.data.take 1000).length ≤ 1000
    exact List.length_take_le _ _

/-- Claim C7: a webhook dispatch attempts delivery exactly to the active
subscriptions of the space whose event filter is empty or contains the
event, one `WebhookLog` per attempt in order (so a filter `["created"]`
never yields a "deleted" attempt, and an empty filter yields one for every
event); every recorded log has a response body truncated to at most 1000
characters and `success = true` exactly when the recorded status is in
`200..299`; and the operation is total for every send behaviour — an
exception is recorded, never propagated. -/
theorem spec_C7 (space_id : Nat) (event : String)
    (behavior : Webhook → SendOutcome) (hooks : List Webhook) :
    dispatch_webhooks space_id event behavior hooks
      = ((hooks.filter (fun w => w.space_id == space_id && w.active)).filter
          (fun w => w.events.isEmpty || w.events.contains event)).map
          (fun w => mkLog event w (behavior w)) ∧
    ∀ log ∈ dispatch_webhooks space_id event behavior hooks,
      ((log.success = true ↔
          ∃ st, log.response_status = some st ∧ 200 ≤ st ∧ st < 300) ∧
        log.response_body.length ≤ 1000) := by
  have hmap := dispatchLoop_eq_map event behavior
    (hooks.filter (fun w => w.space_id == space_id && w.active))
  refine ⟨hmap, ?_⟩
  intro log hmem
  unfold dispatch_webhooks at hmem
  rw [hmap] at hmem
  obtain ⟨w, -, rfl⟩ := List.mem_map.mp hmem
  exact ⟨mkLog_success_iff event w (behavior w), mkLog_body_len event w _⟩

/-- Concrete webhook used by the witness of claim C7: empty event filter,
active, subscribed in space 0. -/
def hookW : Webhook :=
  { id := 1, space_id := 0, url := "http://example", secret := none
    events := [], active := true }

theorem spec_C7_witness :
    (mkLog "created" hookW (SendOutcome.response 204 "")).success = true :=
  (((spec_C7 0 "created" (fun _ => SendOutcome.response 204 "") [hookW]).2
      (mkLog "created" hookW (SendOutcome.response 204 "")) (by decide)).1).mpr
    ⟨204, rfl, by omega, by omega⟩

/-- The `notify_targets` set comprehension of `create_card`
(`backend/app/api/v1/cards.py`): the room's member ids minus the acting
identity. -/
def notify_targets (actor_id : Nat) (members : List Nat) : Finset Nat :=
  (members.filter (fun m => m != actor_id)).toFinset

/-- The notification fan-out of `create_card`: it runs only under
`if actor.is_agent`, creating one notification per target; otherwise no
notification is created.  The result is the set of recipients. -/
def notification_fanout (is_agent : Bool) (actor_id : Nat)
    (members : List Nat) : Finset Nat :=
  if is_agent then notify_targets actor_id members else ∅

/-- Claim C8: the fan-out creates notifications only when the acting
identity is an agent; when it runs, the recipients are exactly the room's
members other than the actor, one notification each; and no notification
ever has the acting identity as recipient. -/
theorem spec_C8 (is_agent : Bool) (actor_id : Nat) (members : List Nat) :
    (is_agent = false → notification_fanout is_agent actor_id members = ∅) ∧
    (∀ r, r ∈ notification_fanout is_agent actor_id members ↔
      is_agent = true ∧ r ∈ members ∧ r ≠ actor_id) ∧
    actor_id ∉ notification_fanout is_agent actor_id members := by
  have hmem : ∀ r, r ∈ notification_fanout is_agent actor_id members ↔
      is_agent = true ∧ r ∈ members ∧ r ≠ actor_id := by
    intro r
    cases is_agent with
    | false => simp [notification_fanout]
    | true => simp [notification_fanout, notify_targets, List.mem_filter]
  refine ⟨?_, hmem, ?_⟩
  · intro h
    simp [notification_fanout, h]
  · intro hmem'
    exact ((hmem actor_id).mp hmem').2.2 rfl

theorem spec_C8_witness : notification_fanout false 1 [1, 2] = ∅ :=
  (spec_C8 false 1 [1, 2]).1 rfl

/-- The `_rate_limit_backoff_cache` dict of `backend/app/main.py`:
client key to (consecutive-429 count, timestamp of last request). -/
abbrev BackoffCache := List (String × Nat × ℚ)

/-- Dict lookup in the backoff cache. -/
def lookupKey : BackoffCache → String → Option (Nat × ℚ)
  | [], _ => none
  | (k, v) :: rest, key => if k = key then some v else lookupKey rest key

/-- Dict assignment in the backoff cache. -/
def setKey : BackoffCache → String → Nat × ℚ → BackoffCache
  | [], key, v => [(key, v)]
  | (k, v') :: rest, key, v =>
    if k = key then (key, v) :: rest else (k, v') :: setKey rest key v

/-- `_get_backoff_minutes`: exponential backoff, capped at 30 minutes. -/
def get_backoff_minutes (retry_count : Nat) : Nat :=
  min (2 ^ retry_count) 30

/-- The `count` local of `custom_rate_limit_handler` after the
rehabilitation check: the cached consecutive-failure count, reset to zero
when more than twice the currently computed wait has elapsed since the
last request, and zero for an unknown key. -/
def effectiveCount (cache : BackoffCache) (key : String) (now : ℚ) : Nat :=
  match lookupKey cache key with
  | some (c, last_retry) =>
    if now - last_retry > (get_backoff_minutes c : ℚ) * 60 * 2 then 0 else c
  | none => 0

/-- `custom_rate_limit_handler` (`backend/app/main.py`), state part: store
the incremented count with the current timestamp and answer the suggested
backoff `_get_backoff_minutes(count - 1)` minutes (0-indexed: the first
429 suggests one minute). -/
def custom_rate_limit_handler (cache : BackoffCache) (key : String)
    (now : ℚ) : BackoffCache × Nat :=
  let count := effectiveCount cache key now
  (setKey cache key (count + 1, now), get_backoff_minutes (count + 1 - 1))

lemma lookupKey_setKey (cache : BackoffCache) (key : String) (v : Nat × ℚ) :
    lookupKey (setKey cache key v) key = some v := by
  induction cache with
  | nil => simp [setKey, lookupKey]
  | cons p rest ih =>
    by_cases h : p.1 = key
    · simp [setKey, h, lookupKey]
    · simp [setKey, h, lookupKey, ih]

/-- Claim C9: a rejected attempt stores an incremented consecutive-failure
counter with the attempt's timestamp and suggests a backoff of
`min(30, 2^count)` minutes for the pre-increment count (1, 2, 4, …
capped at 30): an unknown key starts at count 0, a known key keeps its
stored count unless more than twice the currently computed wait has
elapsed since its last attempt, in which case the counter is reset to zero
first; consequently a second rejected attempt within the grace window
suggests a backoff no smaller than the first. -/
theorem spec_C9 (cache : BackoffCache) (key : String) (t₁ t₂ : ℚ) :
    lookupKey (custom_rate_limit_handler cache key t₁).1 key
      = some (effectiveCount cache key t₁ + 1, t₁) ∧
    (custom_rate_limit_handler cache key t₁).2
      = min (2 ^ effectiveCount cache key t₁) 30 ∧
    (lookupKey cache key = none → effectiveCount cache key t₁ = 0) ∧
    (∀ k last, lookupKey cache key = some (k, last) →
      (t₁ - last > ((min (2 ^ k) 30 : ℕ) : ℚ) * 60 * 2 →
        effectiveCount cache key t₁ = 0) ∧
      (¬ t₁ - last > ((min (2 ^ k) 30 : ℕ) : ℚ) * 60 * 2 →
        effectiveCount cache key t₁ = k)) ∧
    (¬ t₂ - t₁ > ((min (2 ^ (effectiveCount cache key t₁ + 1)) 30 : ℕ) : ℚ) * 60 * 2 →
      (custom_rate_limit_handler cache key t₁).2
        ≤ (custom_rate_limit_handler
            (custom_rate_limit_handler cache key t₁).1 key t₂).2) := by
  have h2 : ∀ c : BackoffCache, ∀ t : ℚ,
      (custom_rate_limit_handler c key t).2
        = min (2 ^ effectiveCount c key t) 30 := by
    intro c t
    simp [custom_rate_limit_handler, get_backoff_minutes]
  have h1 : (custom_rate_limit_handler cache key t₁).1
      = setKey cache key (effectiveCount cache key t₁ + 1, t₁) := rfl
  refine ⟨h1 ▸ lookupKey_setKey cache key _, h2 cache t₁, ?_, ?_, ?_⟩
  · intro h
    unfold effectiveCount
    rw [h]
  · intro k last h
    constructor
    · intro hgt
      simp only [effectiveCount, h, get_backoff_minutes]
      rw [if_pos hgt]
    · intro hle
      simp only [effectiveCount, h, get_backoff_minutes]
      rw [if_neg hle]
  · intro hgr
    set n := effectiveCount cache key t₁ with hn
    have he2 : effectiveCount (custom_rate_limit_handler cache key t₁).1 key t₂
        = n + 1 := by
      conv_lhs => rw [h1]
      simp only [effectiveCount, lookupKey_setKey, get_backoff_minutes]
      rw [if_neg hgr]
    rw [h2 cache t₁, h2 (custom_rate_limit_handler cache key t₁).1 t₂, he2,
      ← hn]
    exact min_le_min
      (Nat.pow_le_pow_right (by norm_num) (Nat.le_succ _)) le_rfl

theorem spec_C9_witness :
    (custom_rate_limit_handler [] "k" 0).2
      ≤ (custom_rate_limit_handler
          (custom_rate_limit_handler [] "k" 0).1 "k" 60).2 :=
  (spec_C9 [] "k" 0 60).2.2.2.2 (by norm_num [effectiveCount, lookupKey])

end Kanbot
